import Mathlib

set_option maxHeartbeats 1000000

/-!
Shallow embedding of `src/modules/models/script_models/scriptObject.ts` from the
SFDX-Data-Move-Utility repository: the migration-task descriptor (`ScriptObject`),
its synchronous `setup` phase (operation normalization, query parsing with
multiselect-keyword extraction, mandatory-field injection, deduplication,
delete-query derivation) and its asynchronous `describeAsync` phase
(per-side schema fetch, multiselect field expansion, field validation,
error wrapping).

External collaborators are embedded at their interface boundary:
the soql parser/composer is modelled by letting a query text denote either a
malformed string or a structured query (`QueryText`), with `parseText` as the
parser and `QueryText.wellFormed` as the composer; the schema-fetch client is
modelled by the fetch outcomes carried in `DescribeEnv`; the logger's warning
channel is modelled as a `warnings` list on the descriptor state.
Helper functions of the repository that live outside the provided source
(`Common.*`, `CONSTANTS.*`) are modelled from the spec and are marked as such
in their doc comments.
-/

/-- Operation kinds of the `OPERATION` enum (statics module). -/
inductive OPERATION where
  | Insert
  | Update
  | Upsert
  | Readonly
  | Delete
deriving DecidableEq, Repr

/-- Runtime value held by the descriptor's `operation` property: the config may
deserialize it as a numeral of the enum or as its string name; an unrecognized
string lookup (`OPERATION[s]`) yields `undefined`. -/
inductive OperationVal where
  | num (op : OPERATION)
  | str (s : String)
  | undef
deriving DecidableEq, Repr

/-- Name lookup `OPERATION[s]` on the string form. -/
def opFromString (s : String) : Option OPERATION :=
  if s == "Insert" then some OPERATION.Insert
  else if s == "Update" then some OPERATION.Update
  else if s == "Upsert" then some OPERATION.Upsert
  else if s == "Readonly" then some OPERATION.Readonly
  else if s == "Delete" then some OPERATION.Delete
  else none

/-- `ScriptObject.getOperation`: converts a string enum value into the numeric
one and leaves any other value unchanged. -/
def getOperation : OperationVal → OperationVal
  | OperationVal.str s =>
      match opFromString s with
      | some op => OperationVal.num op
      | none => OperationVal.undef
  | v => v

/-- Media kind of an org endpoint (`DATA_MEDIA_TYPE`). -/
inductive DATA_MEDIA_TYPE where
  | Org
  | File
deriving DecidableEq, Repr

/-- Structured query produced by the soql parser: entity name, field list
(each field is its name, a composite expression kept as one entry), the where
clauses and the limit.  Fields are identified by their `field` name exactly as
the source compares and dedupes them. -/
structure ParsedQuery where
  sObject : String
  fields : List String
  whereClauses : List (String × String)
  limit : Nat
deriving DecidableEq, Repr

/-- A raw query text at the parser interface: it is either the empty string,
some malformed text, or text that parses to a structured query.  `composeQuery`
always yields a well-formed text. -/
inductive QueryText where
  | empty
  | malformed (t : String)
  | wellFormed (q : ParsedQuery)
deriving DecidableEq, Repr

/-- JavaScript truthiness of a query string (`if (this.deleteQuery)`). -/
def isTruthy : QueryText → Bool
  | QueryText.empty => false
  | QueryText.malformed t => !(t == "")
  | QueryText.wellFormed _ => true

/-- The soql `parseQuery` collaborator: parsing the empty or a malformed text
throws (modelled as `none`). -/
def parseText : QueryText → Option ParsedQuery
  | QueryText.empty => none
  | QueryText.malformed _ => none
  | QueryText.wellFormed q => some q

/-- Multiselect pattern: the dynamic property bag `multiselectPattern`,
a property-name to expected-boolean map in insertion order. -/
abbrev Pattern := List (String × Bool)

/-- JavaScript object property assignment `pattern[key] = v`: overwrite an
existing key, otherwise append it. -/
def patSet (p : Pattern) (k : String) (v : Bool) : Pattern :=
  if p.any (fun kv => kv.1 == k) then
    p.map (fun kv => if kv.1 == k then (k, v) else kv)
  else p ++ [(k, v)]

/-- Property read `pattern[key]`, `none` meaning `undefined`. -/
def patLookup (p : Pattern) (k : String) : Option Bool :=
  (p.find? (fun kv => kv.1 == k)).map (fun kv => kv.2)

/-- One schema field of a snapshot (`SFieldDescribe`), restricted to the
properties the descriptor logic reads. -/
structure SFieldDescribe where
  name : String
  label : String := ""
  creatable : Bool := false
  updateable : Bool := false
  readonly : Bool := false
  custom : Bool := false
  lookup : Bool := false
  autoNumber : Bool := false
  person : Bool := false
  ftype : String := ""
  referencedObjectType : String := ""
deriving DecidableEq, Repr

/-- Dynamic property access `fieldDescribe[prop]` on the boolean properties the
multiselect keywords can name; an unknown property reads as `undefined`. -/
def fdProp (d : SFieldDescribe) : String → Option Bool
  | "creatable" => some d.creatable
  | "updateable" => some d.updateable
  | "readonly" => some d.readonly
  | "custom" => some d.custom
  | "lookup" => some d.lookup
  | "autoNumber" => some d.autoNumber
  | "person" => some d.person
  | _ => none

/-- Schema snapshot of one entity on one side (`SObjectDescribe`): the values
of its `fieldsMap`, in insertion order, keyed by `SFieldDescribe.name`. -/
structure SObjectDescribe where
  fieldsList : List SFieldDescribe
deriving DecidableEq, Repr

/-- Membership test `describe.fieldsMap.has(x)`. -/
def hasField (d : SObjectDescribe) (x : String) : Bool :=
  d.fieldsList.any (fun f => f.name == x)

/-- Lookup `describe.fieldsMap.get(x)`. -/
def getFieldOf (d : SObjectDescribe) (x : String) : Option SFieldDescribe :=
  d.fieldsList.find? (fun f => f.name == x)

/-- Owning job configuration (`Script`), restricted to the flag the descriptor
consults during setup. -/
structure Script where
  isPersonAccountEnabled : Bool := false
deriving DecidableEq, Repr

/-- Kinds of failures a descriptor operation can raise or observe:
`commandInit` is `CommandInitializationError` (configuration error),
`orgMetadata` is `OrgMetadataError` (metadata error), and `other` stands for
any foreign exception a collaborator may throw. -/
inductive JsError where
  | commandInit (msg : String)
  | orgMetadata (msg : String)
  | other (msg : String)
deriving DecidableEq, Repr

/-- The migration-task descriptor (`ScriptObject`) state: the JSON-config
properties the resolution pipeline reads plus the derived properties it
assigns.  Config flags the pipeline never consults (mock-data flags, the
records filter) are omitted.  `warnings` records the logger's warning channel:
entries are (isSourceSide, entity name, field name). -/
structure ScriptObject where
  query : QueryText := QueryText.empty
  deleteQuery : QueryText := QueryText.empty
  operation : OperationVal := OperationVal.num OPERATION.Readonly
  externalId : String := "Name"
  deleteOldData : Bool := false
  excluded : Bool := false
  allRecords : Bool := true
  excludedFields : List String := []
  script : Option Script := none
  name : String := ""
  sourceSObjectDescribe : Option SObjectDescribe := none
  targetSObjectDescribe : Option SObjectDescribe := none
  originalExternalId : String := ""
  parsedQuery : Option ParsedQuery := none
  parsedDeleteQuery : Option ParsedQuery := none
  isExtraObject : Bool := false
  multiselectPattern : Option Pattern := none
  warnings : List (Bool × String × String) := []
deriving DecidableEq, Repr

/-- Getter `fieldsInQuery`: the field names of the parsed query, empty before
the query is parsed. -/
def fieldsInQuery (obj : ScriptObject) : List String :=
  match obj.parsedQuery with
  | none => []
  | some pq => pq.fields

/-- Getter `isInitialized`: keyed on presence of the owning job reference. -/
def isInitialized (obj : ScriptObject) : Bool :=
  obj.script.isSome

/-- Getter `isDescribed`: keyed on presence of the source-side snapshot. -/
def isDescribed (obj : ScriptObject) : Bool :=
  obj.sourceSObjectDescribe.isSome

/-- Character membership in a string (structurally recursive form of the
library's `String.contains`, kept kernel-reducible). -/
def strContainsChar (s : String) (c : Char) : Bool :=
  s.data.any (fun a => a == c)

/-- Lower-casing of a string, modelling JavaScript's `toLowerCase`. -/
def strToLower (s : String) : String :=
  String.mk (s.data.map Char.toLower)

/-- Character-wise mapping over a string. -/
def strMapChars (f : Char → Char) (s : String) : String :=
  String.mk (s.data.map f)

/-- Does the first character list begin with the second one. -/
def beginsWith : List Char → List Char → Bool
  | _, [] => true
  | [], _ :: _ => false
  | a :: as, b :: bs => a == b && beginsWith as bs

/-- Does the first character list contain the second one as a contiguous run. -/
def hasSub : List Char → List Char → Bool
  | [], pat => pat.isEmpty
  | a :: tail, pat => beginsWith (a :: tail) pat || hasSub tail pat

/-- Split a character list at every occurrence of the separator character,
modelling JavaScript's `split`. -/
def splitChar (c : Char) : List Char → List (List Char)
  | [] => [[]]
  | a :: as =>
      let r := splitChar c as
      if a == c then [] :: r
      else
        match r with
        | h :: t => (a :: h) :: t
        | [] => [[a]]

/-- Modelled from the spec: `Common.isComplexOr__rField` lives outside the
provided source.  A field reference counts as complex when it is a
computed/composite expression (it contains the composite separator or the
composite marker) or a relationship path (it contains the relationship
suffix "__r"). -/
def isComplexOr__rField (s : String) : Bool :=
  strContainsChar s ';' || strContainsChar s '$' || hasSub s.data "__r".data

/-- Modelled from the spec: `Common.getComplexField` lives outside the provided
source.  It canonicalizes a composite field expression (separator characters
replaced by the composite marker, marker prepended) and returns a plain field
name unchanged. -/
def getComplexField (s : String) : String :=
  if strContainsChar s ';' then
    "$$" ++ (strMapChars (fun c => if c == ';' then '$' else c) s)
  else s

/-- Modelled from the spec: `Common.distinctArray` lives outside the provided
source; fields are deduplicated by name preserving first-seen order.
`seen` carries the names already emitted. -/
def distinctAux (seen : List String) : List String → List String
  | [] => []
  | x :: xs =>
      if seen.contains x then distinctAux seen xs
      else x :: distinctAux (x :: seen) xs

/-- Deduplicate a field-name list by name, keeping the first occurrence. -/
def distinctArray (l : List String) : List String :=
  distinctAux [] l

/-- One step of the field loop of `_parseQuery` (lines 464-473 of the source):
keyword `all` records `all -> true` into the pattern, a recognized multiselect
keyword `prop_value` records `prop -> (value == "true")`, any other field whose
lower-cased name is not `id` is appended verbatim. -/
def parseStepOne (keywords : List String) (acc : List String × Option Pattern)
    (field : String) : List String × Option Pattern :=
  let fieldName := strToLower field
  if fieldName == "all" then
    (acc.1, some (patSet (acc.2.getD []) "all" true))
  else if keywords.contains fieldName then
    let parts := (splitChar '_' fieldName.data).map (fun l => String.mk l)
    (acc.1, some (patSet (acc.2.getD [])
      (parts.headD "")
      (parts.get? 1 == some "true")))
  else if !(fieldName == "id") then
    (acc.1 ++ [field], acc.2)
  else acc

/-- Method `_parseQuery` applied to an already-parsed raw query: the record-id
field is forced first, multiselect keywords are folded into the pattern, all
other fields are kept verbatim in order.  Returns the rewritten query and the
updated pattern (the method mutates `this.multiselectPattern`). -/
def _parseQuery (keywords : List String) (raw : ParsedQuery)
    (pat0 : Option Pattern) : ParsedQuery × Option Pattern :=
  let r := raw.fields.foldl (parseStepOne keywords) (["Id"], pat0)
  ({ raw with fields := r.1 }, r.2)

/-- Lines 233-242 of `setup`: record the owner, remember the original external
id, normalize the operation value and force the external id to `Id` on
`Insert`. -/
def normalizeObj (script : Script) (obj : ScriptObject) : ScriptObject :=
  let obj1 := { obj with
    script := some script,
    originalExternalId := obj.externalId,
    operation := getOperation obj.operation }
  if obj1.operation = OperationVal.num OPERATION.Insert then
    { obj1 with externalId := "Id" }
  else obj1

/-- Lines 254-271 of `setup`: inject the record-id field when absent, the
(possibly composite) external-id field, the original-external-id field and the
person-account marker, then deduplicate the field list by name. -/
def buildFields (script : Script) (obj : ScriptObject) (pq : ParsedQuery) :
    ParsedQuery :=
  let fs0 := pq.fields
  let fs1 := if !(fs0.contains "Id") then fs0 ++ ["Id"] else fs0
  let fs2 := fs1 ++ [if isComplexOr__rField obj.externalId then
    getComplexField obj.externalId else obj.externalId]
  let fs3 := fs2 ++ [getComplexField obj.originalExternalId]
  let fs4 := if script.isPersonAccountEnabled &&
      (obj.name == "Account" || obj.name == "Contact") then
    fs3 ++ ["IsPersonAccount"] else fs3
  { pq with fields := distinctArray fs4 }

/-- Lines 244-277 of `setup` after a successful parse: run `_parseQuery`,
store its canonical text, collapse the field list and set `deleteOldData` on a
`Delete` operation, inject the mandatory fields, then store the rebuilt query,
its canonical text and the entity name. -/
def applyParsed (script : Script) (keywords : List String) (obj1 : ScriptObject)
    (raw : ParsedQuery) : ScriptObject :=
  let pp := _parseQuery keywords raw obj1.multiselectPattern
  let obj2 := { obj1 with
    multiselectPattern := pp.2,
    query := QueryText.wellFormed pp.1 }
  let obj3 := if obj2.operation = OperationVal.num OPERATION.Delete then
    { obj2 with deleteOldData := true } else obj2
  let pq1 := if obj2.operation = OperationVal.num OPERATION.Delete then
    { pp.1 with fields := ["Id"] } else pp.1
  let pq := buildFields script obj3 pq1
  { obj3 with
    parsedQuery := some pq,
    query := QueryText.wellFormed pq,
    name := pq.sObject }

/-- Lines 279-295 of `setup`: when old data is to be deleted, parse the
configured delete query (or, when that is falsy, the canonical query), collapse
its field list to the record id, add the person-account clause for contacts and
store the composed text.  A parse failure raises a configuration error. -/
def deleteQueryPhase (script : Script) (obj : ScriptObject) :
    Except JsError ScriptObject :=
  if obj.deleteOldData then
    match parseText (if isTruthy obj.deleteQuery then obj.deleteQuery else obj.query) with
    | none =>
        Except.error (JsError.commandInit ("MalformedDeleteQuery:" ++ obj.name))
    | some dq0 =>
        let dq1 := { dq0 with fields := ["Id"] }
        let dq := if script.isPersonAccountEnabled && obj.name == "Contact" then
          { dq1 with whereClauses := dq1.whereClauses ++ [("IsPersonAccount", "false")] }
        else dq1
        Except.ok { obj with
          parsedDeleteQuery := some dq,
          deleteQuery := QueryText.wellFormed dq }
  else Except.ok obj

/-- Method `setup` (lines 228-296): a no-op when already initialized, otherwise
normalization, query parsing (a parse failure raises a configuration error),
mandatory-field injection and delete-query derivation. -/
def setup (script : Script) (keywords : List String) (obj : ScriptObject) :
    Except JsError ScriptObject :=
  if isInitialized obj then Except.ok obj
  else
    let obj1 := normalizeObj script obj
    match parseText obj1.query with
    | none => Except.error (JsError.commandInit ("MalformedQuery:" ++ obj1.name))
    | some raw => deleteQueryPhase script (applyParsed script keywords obj1 raw)

/-- Condition of lines 405-407 of `_addOrRemmoveFields`, simplified from the
source's `___compare` calls: with `___compare(a, b)` being
`a == b || typeof b == "undefined"` and its negative form being
`a != b && typeof a != "undefined"`, the guard evaluates to
`pattern.all == true`, or else every pattern property is either undefined on
the field describe or equal to the expected value. -/
def matchesPattern (pat : Pattern) (d : SFieldDescribe) : Bool :=
  (patLookup pat "all" == some true) ||
  pat.all (fun kv =>
    match fdProp d kv.1 with
    | none => true
    | some v => v == kv.2)

/-- Line 408: a relationship field whose reference target is on the multiselect
deny list is skipped during expansion. -/
def allowedByDenyList (denyList : List String) (d : SFieldDescribe) : Bool :=
  !(d.lookup && denyList.contains d.referencedObjectType)

/-- Fields appended by the multiselect expansion loop: every snapshot field
that matches the pattern, is not already present in the query at loop entry and
is not deny-listed, in snapshot order. -/
def expandAppend (denyList : List String) (pat : Pattern) (desc : SObjectDescribe)
    (cur : List String) : List String :=
  (desc.fieldsList.filter (fun d =>
    matchesPattern pat d && !(cur.contains d.name) && allowedByDenyList denyList d)).map
    (fun d => d.name)

/-- Field-list transformation of `_addOrRemmoveFields`: expansion (when a
pattern exists) followed by the exclusion-list filter. -/
def addOrRemoveFieldsQ (denyList excludedFields : List String)
    (pat : Option Pattern) (desc : SObjectDescribe) (cur : List String) :
    List String :=
  let fs := match pat with
    | some p => cur ++ expandAppend denyList p desc cur
    | none => cur
  fs.filter (fun f => !(excludedFields.contains f))

/-- Method `_addOrRemmoveFields` (lines 400-426): expand the multiselect
pattern against the snapshot, filter out the excluded fields, and re-serialize
the query text.  Before `setup` has parsed a query there is no field list to
rewrite. -/
def _addOrRemmoveFields (denyList : List String) (describe : SObjectDescribe)
    (obj : ScriptObject) : ScriptObject :=
  match obj.parsedQuery with
  | none => obj
  | some pq =>
      let newFields := addOrRemoveFieldsQ denyList obj.excludedFields
        obj.multiselectPattern describe pq.fields
      let pq2 := { pq with fields := newFields }
      { obj with parsedQuery := some pq2, query := QueryText.wellFormed pq2 }

/-- Property read `x.name` where `x` is a string value: a JavaScript string has
no own property `name`, so the read evaluates to `undefined`.  This mirrors
line 441 of the source, which compares `x.name` (not `x`) with the configured
external id. -/
def strNameProp (_x : String) : Option String := none

/-- Modelled from the spec: `Common.removeBy(fields, "field", x)` lives outside
the provided source; the missing field is removed from the resolved query. -/
def removeQueryField (x : String) (q : Option ParsedQuery) : Option ParsedQuery :=
  q.map (fun pq => { pq with fields := pq.fields.filter (fun f => !(f == x)) })

/-- Loop body of `_validateFields` (lines 438-455) for one field reference `x`:
a non-complex field absent from the snapshot either trips the (dead, see
`strNameProp`) external-id comparison and raises a metadata error, or is warned
about on the given side and removed from the query. -/
def validateStep (d : SObjectDescribe) (isSource : Bool) (acc : ScriptObject)
    (x : String) : Except JsError ScriptObject :=
  if !(isComplexOr__rField x) && !(hasField d x) then
    if strNameProp x = some acc.externalId then
      Except.error (JsError.orgMetadata ("noExternalKey:" ++ acc.name))
    else
      Except.ok { acc with
        warnings := acc.warnings ++ [(isSource, acc.name, x)],
        parsedQuery := removeQueryField x acc.parsedQuery }
  else Except.ok acc

/-- Method `_validateFields` (lines 428-457): an empty resolved field list is a
fatal configuration error; extra objects and platform-special objects skip the
existence checks; otherwise every field reference in the query at entry is
checked against the snapshot. -/
def _validateFields (specialObjects : List String) (d : SObjectDescribe)
    (isSource : Bool) (obj : ScriptObject) : Except JsError ScriptObject :=
  if (fieldsInQuery obj).length = 0 then
    Except.error (JsError.commandInit ("missingFieldsToProcess:" ++ obj.name))
  else
    if !obj.isExtraObject && !(specialObjects.contains obj.name) then
      (fieldsInQuery obj).foldlM (validateStep d isSource) obj
    else Except.ok obj

/-- Collaborator context of `describeAsync`: the media kind of each side, the
outcome of each side's schema fetch (`describeSObjectAsync` may throw any
error), the multiselect deny list and the platform-special object list. -/
structure DescribeEnv where
  sourceMedia : DATA_MEDIA_TYPE
  targetMedia : DATA_MEDIA_TYPE
  sourceFetch : Except JsError SObjectDescribe
  targetFetch : Except JsError SObjectDescribe
  denyList : List String := []
  specialObjects : List String := []
deriving Repr

/-- Error translation of the catch blocks at lines 330-335 and 359-364: a
configuration error is rethrown unchanged, anything else is replaced by a
metadata error naming the entity and the failed side. -/
def wrapDescribeError (entityName : String) (isSource : Bool) (ex : JsError) :
    JsError :=
  match ex with
  | JsError.commandInit m => JsError.commandInit m
  | _ => JsError.orgMetadata
      ((if isSource then "objectSourceDoesNotExist:" else "objectTargetDoesNotExist:")
        ++ entityName)

/-- Source-side try block (lines 315-329): fetch the source snapshot, mirror it
to the target slot when the target medium is a file, expand the multiselect
fields and validate them against the source snapshot. -/
def sourceBlock (env : DescribeEnv) (obj : ScriptObject) :
    Except JsError ScriptObject :=
  match env.sourceFetch with
  | Except.error e => Except.error e
  | Except.ok d =>
      let obj1 := { obj with
        sourceSObjectDescribe := some d,
        targetSObjectDescribe :=
          if env.targetMedia = DATA_MEDIA_TYPE.File then some d
          else obj.targetSObjectDescribe }
      _validateFields env.specialObjects d true
        (_addOrRemmoveFields env.denyList d obj1)

/-- Target-side try block (lines 344-358): fetch the target snapshot, mirror it
to the source slot (and only then run the expansion) when the source medium is
a file, and validate against the target snapshot. -/
def targetBlock (env : DescribeEnv) (obj : ScriptObject) :
    Except JsError ScriptObject :=
  match env.targetFetch with
  | Except.error e => Except.error e
  | Except.ok d =>
      let obj1 := { obj with targetSObjectDescribe := some d }
      let obj2 := if env.sourceMedia = DATA_MEDIA_TYPE.File then
        _addOrRemmoveFields env.denyList d
          { obj1 with sourceSObjectDescribe := some d }
      else obj1
      _validateFields env.specialObjects d false obj2

/-- Method `describeAsync` (lines 304-367): a no-op once described; a side is
fetched, expanded and validated only when its medium is a describable org, in
source-then-target order, and each side's failures pass through
`wrapDescribeError`. -/
def describeAsync (env : DescribeEnv) (obj : ScriptObject) :
    Except JsError ScriptObject :=
  if isDescribed obj then Except.ok obj
  else
    match (if env.sourceMedia = DATA_MEDIA_TYPE.Org then
        Except.mapError (wrapDescribeError obj.name true) (sourceBlock env obj)
      else Except.ok obj) with
    | Except.error e => Except.error e
    | Except.ok obj2 =>
        if env.targetMedia = DATA_MEDIA_TYPE.Org then
          Except.mapError (wrapDescribeError obj2.name false) (targetBlock env obj2)
        else Except.ok obj2

/-- Default field describe built by the `fieldsInQueryMap` getter for a query
field that is absent from the snapshot. -/
def dynamicFieldDescribe (key : String) : SFieldDescribe :=
  { name := key, label := key, creatable := false, updateable := false,
    ftype := "dynamic" }

/-- Getter `fieldsInQueryMap` (lines 86-97): empty before the describe phase,
afterwards one entry per query field, falling back to a dynamic describe for
fields unknown to the source snapshot. -/
def fieldsInQueryMap (obj : ScriptObject) :
    List (String × SFieldDescribe) :=
  match obj.sourceSObjectDescribe with
  | none => []
  | some d =>
      (fieldsInQuery obj).map (fun key =>
        (key, (getFieldOf d key).getD (dynamicFieldDescribe key)))

/-- Decidable equality of operation outcomes, so that concrete runs of the
pipeline can be checked by evaluation. -/
def exceptDecEq {ε α : Type} [DecidableEq ε] [DecidableEq α] :
    DecidableEq (Except ε α) := fun x y =>
  match x, y with
  | Except.ok a, Except.ok b =>
      if h : a = b then isTrue (by rw [h])
      else isFalse (fun hc => h (Except.ok.inj hc))
  | Except.error a, Except.error b =>
      if h : a = b then isTrue (by rw [h])
      else isFalse (fun hc => h (Except.error.inj hc))
  | Except.ok _, Except.error _ => isFalse (fun hc => Except.noConfusion hc)
  | Except.error _, Except.ok _ => isFalse (fun hc => Except.noConfusion hc)

instance {ε α : Type} [DecidableEq ε] [DecidableEq α] :
    DecidableEq (Except ε α) := exceptDecEq

/-! Concrete sample descriptors used by witnesses and counterexamples. -/

/-- Job configuration with person accounts disabled. -/
def scriptNoPA : Script := {}

/-- Raw query listing the record-id field in three letter cases besides an
ordinary field. -/
def pqC1 : ParsedQuery := ⟨"Account", ["Name", "ID", "id", "Id"], [], 0⟩

/-- Descriptor whose raw query is `pqC1`. -/
def objC1 : ScriptObject :=
  { query := QueryText.wellFormed pqC1, externalId := "Name" }

/-- Outcome of `setup` on `objC1`. -/
def objC1out : ScriptObject :=
  match setup scriptNoPA [] objC1 with
  | Except.ok o => o
  | Except.error _ => objC1

/-- Raw one-field query on the `Contact` entity. -/
def pqContactEmail : ParsedQuery := ⟨"Contact", ["Email"], [], 0⟩

/-- Descriptor configured with a string `Insert` operation and a non-id
external id. -/
def objC5 : ScriptObject :=
  { query := QueryText.wellFormed pqContactEmail, externalId := "Email",
    operation := OperationVal.str "Insert" }

/-- Outcome of `setup` on `objC5`. -/
def objC5out : ScriptObject :=
  match setup scriptNoPA [] objC5 with
  | Except.ok o => o
  | Except.error _ => objC5

/-- Raw one-field query on the `Account` entity. -/
def pqAccountName : ParsedQuery := ⟨"Account", ["Name"], [], 0⟩

/-- Resolved two-field query on the `Account` entity. -/
def pqAccountIdName : ParsedQuery := ⟨"Account", ["Id", "Name"], [], 0⟩

/-- Descriptor that has already been initialized (its owner reference is
present). -/
def objC9 : ScriptObject :=
  { query := QueryText.wellFormed pqAccountName, script := some scriptNoPA,
    parsedQuery := some pqAccountIdName }

/-- Descriptor with a `Delete` operation and external id `Name`. -/
def objC2 : ScriptObject :=
  { query := QueryText.wellFormed pqAccountName, externalId := "Name",
    operation := OperationVal.num OPERATION.Delete }

/-- Outcome of `setup` on `objC2`. -/
def objC2out : ScriptObject :=
  match setup scriptNoPA [] objC2 with
  | Except.ok o => o
  | Except.error _ => objC2

/-- Snapshot with no fields. -/
def descEmpty : SObjectDescribe := ⟨[]⟩

/-- Resolved descriptor with one excluded field in its query. -/
def objC7 : ScriptObject :=
  { query := QueryText.wellFormed ⟨"Account", ["Id", "Secret", "Name"], [], 0⟩,
    parsedQuery := some ⟨"Account", ["Id", "Secret", "Name"], [], 0⟩,
    excludedFields := ["Secret"], script := some scriptNoPA }

/-- Snapshot holding only the record-id field. -/
def descIdOnly : SObjectDescribe := ⟨[{ name := "Id" }]⟩

/-- Resolved descriptor whose configured external id `Name` is absent from
`descIdOnly`. -/
def objC3 : ScriptObject :=
  { query := QueryText.wellFormed pqAccountIdName,
    parsedQuery := some pqAccountIdName, externalId := "Name",
    name := "Account", script := some scriptNoPA }

/-- Outcome of validating `objC3` against `descIdOnly`. -/
def objC3out : ScriptObject :=
  match _validateFields [] descIdOnly true objC3 with
  | Except.ok o => o
  | Except.error _ => objC3

/-- Descriptor whose exclusion list names the record-id field itself. -/
def objC4 : ScriptObject :=
  { query := QueryText.wellFormed pqAccountName, externalId := "Name",
    excludedFields := ["Id"] }

/-- Outcome of `setup` on `objC4`. -/
def objC4out : ScriptObject :=
  match setup scriptNoPA [] objC4 with
  | Except.ok o => o
  | Except.error _ => objC4

/-- A foreign fetch failure. -/
def exC8 : JsError := JsError.other "network failure"

/-- Describe context in which both sides are orgs and both fetches fail with a
foreign error. -/
def envC8 : DescribeEnv :=
  { sourceMedia := DATA_MEDIA_TYPE.Org, targetMedia := DATA_MEDIA_TYPE.Org,
    sourceFetch := Except.error exC8, targetFetch := Except.error exC8 }

/-- Undescribed descriptor used for the describe-phase samples. -/
def objC8 : ScriptObject :=
  { query := QueryText.wellFormed pqAccountIdName,
    parsedQuery := some pqAccountIdName, name := "Account",
    script := some scriptNoPA }

/-- Describe context in which both sides are files; the fetch outcomes are
failures to show they are never consulted. -/
def envC10 : DescribeEnv :=
  { sourceMedia := DATA_MEDIA_TYPE.File, targetMedia := DATA_MEDIA_TYPE.File,
    sourceFetch := Except.error exC8, targetFetch := Except.error exC8 }

/-- SAMPLES-MARKER (more samples are inserted above this line) -/
def sampleKeywords : List String := ["creatable_true", "creatable_false",
  "updateable_true", "updateable_false", "readonly_true", "readonly_false",
  "lookup_true", "lookup_false", "custom_true", "custom_false",
  "person_true", "person_false"]

/-! Helper lemmas. -/

theorem mem_distinctAux (a : String) :
    ∀ (l seen : List String), a ∈ distinctAux seen l ↔ a ∈ l ∧ a ∉ seen := by
  intro l
  induction l with
  | nil => intro seen; simp [distinctAux]
  | cons x xs ih =>
      intro seen
      by_cases hx : seen.contains x
      · have hxmem : x ∈ seen := by
          simpa [List.elem_iff] using hx
        simp only [distinctAux, hx, if_pos]
        rw [ih seen]
        constructor
        · rintro ⟨h1, h2⟩
          exact ⟨List.mem_cons_of_mem x h1, h2⟩
        · rintro ⟨h1, h2⟩
          rcases List.mem_cons.mp h1 with h | h
          · exact absurd (h ▸ hxmem) h2
          · exact ⟨h, h2⟩
      · simp only [distinctAux, hx, if_neg, Bool.not_eq_true]
        rw [List.mem_cons, ih (x :: seen)]
        constructor
        · rintro (h | ⟨h1, h2⟩)
          · subst h
            refine ⟨List.mem_cons_self _ _, ?_⟩
            intro hseen
            exact absurd (by simpa [List.elem_iff] using hseen) (by simpa using hx)
          · exact ⟨List.mem_cons_of_mem x h1, fun hs => h2 (List.mem_cons_of_mem x hs)⟩
        · rintro ⟨h1, h2⟩
          rcases List.mem_cons.mp h1 with h | h
          · exact Or.inl h
          · by_cases hax : a = x
            · exact Or.inl hax
            · exact Or.inr ⟨h, fun hs => by
                rcases List.mem_cons.mp hs with h' | h'
                · exact hax h'
                · exact h2 h'⟩

theorem nodup_distinctAux :
    ∀ (l seen : List String), (distinctAux seen l).Nodup := by
  intro l
  induction l with
  | nil => intro seen; simp [distinctAux]
  | cons x xs ih =>
      intro seen
      by_cases hx : seen.contains x
      · simp only [distinctAux, hx, if_pos]
        exact ih seen
      · simp only [distinctAux, hx, if_neg, Bool.not_eq_true]
        refine List.nodup_cons.mpr ⟨?_, ih (x :: seen)⟩
        intro hmem
        rcases (mem_distinctAux x xs (x :: seen)).mp hmem with ⟨_, h2⟩
        exact h2 (List.mem_cons_self _ _)

theorem mem_distinctArray (a : String) (l : List String) :
    a ∈ distinctArray l ↔ a ∈ l := by
  rw [distinctArray, mem_distinctAux]
  simp

theorem nodup_distinctArray (l : List String) : (distinctArray l).Nodup :=
  nodup_distinctAux l []

theorem count_distinctArray_of_mem {a : String} {l : List String} (h : a ∈ l) :
    (distinctArray l).count a = 1 :=
  List.count_eq_one_of_mem (nodup_distinctArray l)
    ((mem_distinctArray a l).mpr h)

theorem distinctArray_cons_head (x : String) (xs : List String) :
    distinctArray (x :: xs) = x :: distinctAux [x] xs := by
  simp [distinctArray, distinctAux]

theorem parseStepOne_fst (kws : List String) (acc : List String × Option Pattern)
    (x : String) : ∃ u, (parseStepOne kws acc x).1 = acc.1 ++ u := by
  unfold parseStepOne
  dsimp only
  split
  · exact ⟨[], by simp⟩
  · split
    · exact ⟨[], by simp⟩
    · split
      · exact ⟨[x], rfl⟩
      · exact ⟨[], by simp⟩

theorem foldl_parse_fst (kws : List String) :
    ∀ (fs : List String) (acc : List String × Option Pattern),
      ∃ t, (fs.foldl (parseStepOne kws) acc).1 = acc.1 ++ t := by
  intro fs
  induction fs with
  | nil => intro acc; exact ⟨[], by simp⟩
  | cons x xs ih =>
      intro acc
      obtain ⟨u, hu⟩ := parseStepOne_fst kws acc x
      obtain ⟨t, ht⟩ := ih (parseStepOne kws acc x)
      refine ⟨u ++ t, ?_⟩
      rw [List.foldl_cons, ht, hu, List.append_assoc]

theorem _parseQuery_fields_cons (kws : List String) (raw : ParsedQuery)
    (p : Option Pattern) :
    ∃ t, (_parseQuery kws raw p).1.fields = "Id" :: t := by
  obtain ⟨t, ht⟩ := foldl_parse_fst kws raw.fields (["Id"], p)
  exact ⟨t, by simpa [_parseQuery] using ht⟩

theorem extAdd_eq_getComplexField (s : String) :
    (if isComplexOr__rField s then getComplexField s else s) = getComplexField s := by
  by_cases h : strContainsChar s ';'
  · have hc : isComplexOr__rField s = true := by
      simp [isComplexOr__rField, h]
    simp [hc]
  · have hg : getComplexField s = s := by
      simp [getComplexField, h]
    by_cases h2 : isComplexOr__rField s <;> simp [h2, hg]

theorem buildFields_fields (script : Script) (obj : ScriptObject)
    (pq : ParsedQuery) (t : List String) (h : pq.fields = "Id" :: t) :
    (buildFields script obj pq).fields.head? = some "Id" ∧
    (buildFields script obj pq).fields.count "Id" = 1 ∧
    (buildFields script obj pq).fields.count (getComplexField obj.externalId) = 1 ∧
    (buildFields script obj pq).fields.Nodup := by
  have hcon : pq.fields.contains "Id" = true := by
    rw [h]; simp [List.elem_iff]
  unfold buildFields
  dsimp only
  rw [hcon]
  simp only [Bool.not_true, if_neg, Bool.false_eq_true, not_false_iff, if_false]
  rw [extAdd_eq_getComplexField]
  set big := (if script.isPersonAccountEnabled &&
      (obj.name == "Account" || obj.name == "Contact") then
    pq.fields ++ [getComplexField obj.externalId] ++
      [getComplexField obj.originalExternalId] ++ ["IsPersonAccount"]
  else
    pq.fields ++ [getComplexField obj.externalId] ++
      [getComplexField obj.originalExternalId]) with hbig
  have hid : "Id" ∈ big := by
    rw [hbig]
    split <;> simp [h]
  have hext : getComplexField obj.externalId ∈ big := by
    rw [hbig]
    split <;> simp
  have hhead : ∃ u, big = "Id" :: u := by
    rw [hbig, h]
    split
    · exact ⟨t ++ [getComplexField obj.externalId] ++
        [getComplexField obj.originalExternalId] ++ ["IsPersonAccount"], by simp⟩
    · exact ⟨t ++ [getComplexField obj.externalId] ++
        [getComplexField obj.originalExternalId], by simp⟩
  refine ⟨?_, count_distinctArray_of_mem hid,
    count_distinctArray_of_mem hext, nodup_distinctArray big⟩
  obtain ⟨u, hu⟩ := hhead
  rw [hu, distinctArray_cons_head]
  rfl

theorem normalizeObj_query (s : Script) (o : ScriptObject) :
    (normalizeObj s o).query = o.query := by
  unfold normalizeObj; dsimp only; split <;> rfl

theorem normalizeObj_operation (s : Script) (o : ScriptObject) :
    (normalizeObj s o).operation = getOperation o.operation := by
  unfold normalizeObj; dsimp only; split <;> rfl

theorem normalizeObj_originalExternalId (s : Script) (o : ScriptObject) :
    (normalizeObj s o).originalExternalId = o.externalId := by
  unfold normalizeObj; dsimp only; split <;> rfl

theorem normalizeObj_multiselectPattern (s : Script) (o : ScriptObject) :
    (normalizeObj s o).multiselectPattern = o.multiselectPattern := by
  unfold normalizeObj; dsimp only; split <;> rfl

theorem normalizeObj_excludedFields (s : Script) (o : ScriptObject) :
    (normalizeObj s o).excludedFields = o.excludedFields := by
  unfold normalizeObj; dsimp only; split <;> rfl

theorem normalizeObj_externalId_insert (s : Script) (o : ScriptObject)
    (h : getOperation o.operation = OperationVal.num OPERATION.Insert) :
    (normalizeObj s o).externalId = "Id" := by
  unfold normalizeObj
  dsimp only
  rw [if_pos (by simpa using h)]

theorem normalizeObj_externalId_of_ne (s : Script) (o : ScriptObject)
    (h : getOperation o.operation ≠ OperationVal.num OPERATION.Insert) :
    (normalizeObj s o).externalId = o.externalId := by
  unfold normalizeObj
  dsimp only
  rw [if_neg (by simpa using h)]

theorem applyParsed_externalId (s : Script) (kws : List String)
    (o : ScriptObject) (r : ParsedQuery) :
    (applyParsed s kws o r).externalId = o.externalId := by
  unfold applyParsed; dsimp only; split <;> rfl

theorem applyParsed_operation (s : Script) (kws : List String)
    (o : ScriptObject) (r : ParsedQuery) :
    (applyParsed s kws o r).operation = o.operation := by
  unfold applyParsed; dsimp only; split <;> rfl

theorem applyParsed_excludedFields (s : Script) (kws : List String)
    (o : ScriptObject) (r : ParsedQuery) :
    (applyParsed s kws o r).excludedFields = o.excludedFields := by
  unfold applyParsed; dsimp only; split <;> rfl

theorem applyParsed_deleteOldData_delete (s : Script) (kws : List String)
    (o : ScriptObject) (r : ParsedQuery)
    (h : o.operation = OperationVal.num OPERATION.Delete) :
    (applyParsed s kws o r).deleteOldData = true := by
  unfold applyParsed
  dsimp only
  rw [if_pos (by simpa using h)]

theorem applyParsed_parsedQuery_fields (s : Script) (kws : List String)
    (o : ScriptObject) (r : ParsedQuery) :
    ∃ pq, (applyParsed s kws o r).parsedQuery = some pq ∧
      pq.fields.head? = some "Id" ∧ pq.fields.count "Id" = 1 ∧
      pq.fields.count (getComplexField o.externalId) = 1 ∧ pq.fields.Nodup := by
  obtain ⟨t, ht⟩ := _parseQuery_fields_cons kws r o.multiselectPattern
  unfold applyParsed
  dsimp only
  split
  · refine ⟨_, rfl, ?_⟩
    exact buildFields_fields s _ _ [] rfl
  · refine ⟨_, rfl, ?_⟩
    exact buildFields_fields s _ _ t ht

theorem deleteQueryPhase_ok_shape (s : Script) (o o' : ScriptObject)
    (h : deleteQueryPhase s o = Except.ok o') :
    ∃ pdq dqt, o' = { o with parsedDeleteQuery := pdq, deleteQuery := dqt } := by
  unfold deleteQueryPhase at h
  by_cases hd : o.deleteOldData = true
  · rw [if_pos (by simpa using hd)] at h
    cases hp : parseText (if isTruthy o.deleteQuery then o.deleteQuery else o.query) with
    | none => rw [hp] at h; exact absurd h (by simp)
    | some dq0 =>
        rw [hp] at h
        dsimp only at h
        exact ⟨_, _, (Except.ok.inj h).symm⟩
  · rw [if_neg (by simpa using hd)] at h
    have ho : o = o' := Except.ok.inj h
    exact ⟨o.parsedDeleteQuery, o.deleteQuery, by rw [← ho]⟩

theorem deleteQueryPhase_delete_fields (s : Script) (o o' : ScriptObject)
    (hd : o.deleteOldData = true)
    (h : deleteQueryPhase s o = Except.ok o') :
    ∃ dq, o'.parsedDeleteQuery = some dq ∧ dq.fields = ["Id"] := by
  unfold deleteQueryPhase at h
  rw [if_pos (by simpa using hd)] at h
  cases hp : parseText (if isTruthy o.deleteQuery then o.deleteQuery else o.query) with
  | none => rw [hp] at h; exact absurd h (by simp)
  | some dq0 =>
      rw [hp] at h
      dsimp only at h
      have ho' := (Except.ok.inj h).symm
      rw [ho']
      dsimp only
      split
      · exact ⟨_, rfl, rfl⟩
      · exact ⟨_, rfl, rfl⟩

theorem setup_ok_inv (script : Script) (kws : List String)
    (obj obj' : ScriptObject) (h0 : obj.script = none)
    (hs : setup script kws obj = Except.ok obj') :
    ∃ raw, parseText obj.query = some raw ∧
      deleteQueryPhase script (applyParsed script kws (normalizeObj script obj) raw) =
        Except.ok obj' := by
  have hinit : isInitialized obj = false := by
    simp [isInitialized, h0]
  unfold setup at hs
  rw [hinit] at hs
  simp only [Bool.false_eq_true, if_false] at hs
  rw [normalizeObj_query] at hs
  cases hp : parseText obj.query with
  | none => rw [hp] at hs; exact absurd hs (by simp)
  | some raw =>
      rw [hp] at hs
      exact ⟨raw, rfl, hs⟩

theorem normalizeObj_name (s : Script) (o : ScriptObject) :
    (normalizeObj s o).name = o.name := by
  unfold normalizeObj; dsimp only; split <;> rfl

/-- C1: for every raw query text in which the record-identifier field `Id` is
listed zero, one, or many times (in any letter case), the field list of the
query resolved by `setup` contains `Id` exactly once and as the first
element. -/
theorem setup_id_first_and_unique (script : Script) (kws : List String)
    (obj obj' : ScriptObject) (h0 : obj.script = none)
    (hs : setup script kws obj = Except.ok obj') :
    ∃ pq, obj'.parsedQuery = some pq ∧
      pq.fields.head? = some "Id" ∧ pq.fields.count "Id" = 1 := by
  obtain ⟨raw, _, hdq⟩ := setup_ok_inv script kws obj obj' h0 hs
  obtain ⟨pdq, dqt, ho'⟩ := deleteQueryPhase_ok_shape _ _ _ hdq
  obtain ⟨pq, hpq, hhead, hcount, _, _⟩ :=
    applyParsed_parsedQuery_fields script kws (normalizeObj script obj) raw
  refine ⟨pq, ?_, hhead, hcount⟩
  rw [ho']
  exact hpq

/-- Witness for C1: a concrete descriptor listing `Id` as `ID`, `id` and `Id`
besides `Name`; after `setup` the resolved field list holds `Id` once,
first. -/
theorem setup_id_first_and_unique_witness :
    objC1.script = none ∧ setup scriptNoPA [] objC1 = Except.ok objC1out ∧
      (∃ pq, objC1out.parsedQuery = some pq ∧
        pq.fields.head? = some "Id" ∧ pq.fields.count "Id" = 1) :=
  ⟨rfl, by decide,
    setup_id_first_and_unique scriptNoPA [] objC1 objC1out rfl (by decide)⟩

/-- C5: for every descriptor whose normalized operation is `Insert`, after
`setup` the external identifier equals the record-identifier field `Id`,
whatever external identifier was configured. -/
theorem setup_insert_forces_id_externalId (script : Script) (kws : List String)
    (obj obj' : ScriptObject) (h0 : obj.script = none)
    (hop : getOperation obj.operation = OperationVal.num OPERATION.Insert)
    (hs : setup script kws obj = Except.ok obj') :
    obj'.externalId = "Id" := by
  obtain ⟨raw, _, hdq⟩ := setup_ok_inv script kws obj obj' h0 hs
  obtain ⟨pdq, dqt, ho'⟩ := deleteQueryPhase_ok_shape _ _ _ hdq
  rw [ho']
  show (applyParsed script kws (normalizeObj script obj) raw).externalId = "Id"
  rw [applyParsed_externalId, normalizeObj_externalId_insert _ _ hop]

/-- Witness for C5: a concrete descriptor with string operation `Insert` and
configured external id `Email`; after `setup` the external id is `Id`. -/
theorem setup_insert_forces_id_externalId_witness :
    objC5.script = none ∧
      getOperation objC5.operation = OperationVal.num OPERATION.Insert ∧
      setup scriptNoPA [] objC5 = Except.ok objC5out ∧
      objC5out.externalId = "Id" :=
  ⟨rfl, by decide, by decide,
    setup_insert_forces_id_externalId scriptNoPA [] objC5 objC5out rfl
      (by decide) (by decide)⟩

/-- C9: `setup` is idempotent: on a descriptor already holding its owning job
reference a second call returns immediately with the state unchanged. -/
theorem setup_noop_when_initialized (script : Script) (kws : List String)
    (obj : ScriptObject) (h : isInitialized obj = true) :
    setup script kws obj = Except.ok obj := by
  unfold setup
  rw [h]
  simp

/-- Witness for C9: a concrete initialized descriptor on which `setup` is the
identity. -/
theorem setup_noop_when_initialized_witness :
    isInitialized objC9 = true ∧
      setup scriptNoPA [] objC9 = Except.ok objC9 :=
  ⟨by decide, setup_noop_when_initialized scriptNoPA [] objC9 (by decide)⟩

theorem applyParsed_delete_fields (s : Script) (kws : List String)
    (o : ScriptObject) (r : ParsedQuery)
    (hop : o.operation = OperationVal.num OPERATION.Delete) :
    ∃ pq, (applyParsed s kws o r).parsedQuery = some pq ∧
      pq.fields = distinctArray (["Id", getComplexField o.externalId,
        getComplexField o.originalExternalId] ++
        (if s.isPersonAccountEnabled && (o.name == "Account" || o.name == "Contact")
          then ["IsPersonAccount"] else [])) := by
  unfold applyParsed
  dsimp only
  rw [if_pos (by simpa using hop), if_pos (by simpa using hop)]
  refine ⟨_, rfl, ?_⟩
  unfold buildFields
  dsimp only
  have h1 : (["Id"] : List String).contains "Id" = true := by decide
  rw [h1]
  simp only [Bool.not_true, Bool.false_eq_true, if_false]
  rw [extAdd_eq_getComplexField]
  split <;> simp

/-- C2 (amended): for a `Delete`-operation descriptor, `setup` derives a
delete query whose field list is exactly `[Id]`; the resolved query is first
collapsed to the record id but the external-identifier injection then runs on
it, so its field list starts with `Id`, contains only the record id, the
resolved external identifier and (when applicable) the person-account marker,
and is exactly `[Id]` precisely when the external identifier resolves to `Id`
and the marker is not added. -/
theorem delete_setup_query_amended (script : Script) (kws : List String)
    (obj obj' : ScriptObject) (h0 : obj.script = none)
    (hop : getOperation obj.operation = OperationVal.num OPERATION.Delete)
    (hs : setup script kws obj = Except.ok obj') :
    (∃ dq, obj'.parsedDeleteQuery = some dq ∧ dq.fields = ["Id"]) ∧
    (fieldsInQuery obj').head? = some "Id" ∧
    (∀ f ∈ fieldsInQuery obj', f = "Id" ∨ f = getComplexField obj.externalId ∨
      f = "IsPersonAccount") ∧
    (getComplexField obj.externalId = "Id" →
      (script.isPersonAccountEnabled &&
        (obj.name == "Account" || obj.name == "Contact")) = false →
      fieldsInQuery obj' = ["Id"]) := by
  obtain ⟨raw, hp, hdq⟩ := setup_ok_inv script kws obj obj' h0 hs
  have hop1 : (normalizeObj script obj).operation =
      OperationVal.num OPERATION.Delete := by
    rw [normalizeObj_operation]; exact hop
  have hext1 : (normalizeObj script obj).externalId = obj.externalId := by
    refine normalizeObj_externalId_of_ne _ _ ?_
    rw [hop]; intro hcon; exact OPERATION.noConfusion (OperationVal.num.inj hcon)
  have horig1 : (normalizeObj script obj).originalExternalId = obj.externalId :=
    normalizeObj_originalExternalId _ _
  have hname1 : (normalizeObj script obj).name = obj.name :=
    normalizeObj_name _ _
  obtain ⟨pq, hpq, hfields⟩ :=
    applyParsed_delete_fields script kws (normalizeObj script obj) raw hop1
  have hdod : (applyParsed script kws (normalizeObj script obj) raw).deleteOldData
      = true := applyParsed_deleteOldData_delete _ _ _ _ hop1
  obtain ⟨dq, hdq1, hdq2⟩ := deleteQueryPhase_delete_fields _ _ _ hdod hdq
  obtain ⟨pdq, dqt, ho'⟩ := deleteQueryPhase_ok_shape _ _ _ hdq
  have hobjpq : obj'.parsedQuery = some pq := by
    rw [ho']; exact hpq
  have hfq : fieldsInQuery obj' = pq.fields := by
    unfold fieldsInQuery; rw [hobjpq]
  rw [hext1, horig1, hname1] at hfields
  refine ⟨⟨dq, hdq1, hdq2⟩, ?_, ?_, ?_⟩
  · rw [hfq, hfields]
    have hsplit : (["Id", getComplexField obj.externalId,
        getComplexField obj.externalId] ++
        (if script.isPersonAccountEnabled &&
          (obj.name == "Account" || obj.name == "Contact")
          then ["IsPersonAccount"] else [])) =
        "Id" :: ([getComplexField obj.externalId,
          getComplexField obj.externalId] ++
        (if script.isPersonAccountEnabled &&
          (obj.name == "Account" || obj.name == "Contact")
          then ["IsPersonAccount"] else [])) := by simp
    rw [hsplit, distinctArray_cons_head]
    rfl
  · intro f hf
    rw [hfq, hfields, mem_distinctArray] at hf
    rcases List.mem_append.mp hf with h | h
    · simp only [List.mem_cons, List.not_mem_nil, or_false] at h
      tauto
    · by_cases hc : (script.isPersonAccountEnabled &&
        (obj.name == "Account" || obj.name == "Contact")) = true
      · rw [if_pos hc] at h
        simp only [List.mem_cons, List.not_mem_nil, or_false] at h
        exact Or.inr (Or.inr h)
      · rw [if_neg hc] at h
        exact absurd h (List.not_mem_nil f)
  · intro hg hpers
    rw [hfq, hfields, hg, if_neg (by simp [hpers])]
    decide

/-- Counterexample to C2 as stated: on a `Delete` descriptor with external id
`Name`, `setup` leaves the resolved query's field list as `[Id, Name]` (the
external-identifier injection runs after the collapse), not as the single
field `Id`. -/
theorem delete_setup_fields_counterexample :
    setup scriptNoPA [] objC2 = Except.ok objC2out ∧
    objC2out.parsedQuery.map (fun pq => pq.fields) = some ["Id", "Name"] ∧
    objC2out.parsedQuery.map (fun pq => pq.fields) ≠ some ["Id"] := by
  refine ⟨by decide, by decide, by decide⟩

/-- Witness for the amended C2 at the concrete `Delete` descriptor `objC2`. -/
theorem delete_setup_query_amended_witness :
    objC2.script = none ∧
    getOperation objC2.operation = OperationVal.num OPERATION.Delete ∧
    setup scriptNoPA [] objC2 = Except.ok objC2out ∧
    ((∃ dq, objC2out.parsedDeleteQuery = some dq ∧ dq.fields = ["Id"]) ∧
      (fieldsInQuery objC2out).head? = some "Id" ∧
      (∀ f ∈ fieldsInQuery objC2out, f = "Id" ∨
        f = getComplexField objC2.externalId ∨ f = "IsPersonAccount") ∧
      (getComplexField objC2.externalId = "Id" →
        (scriptNoPA.isPersonAccountEnabled &&
          (objC2.name == "Account" || objC2.name == "Contact")) = false →
        fieldsInQuery objC2out = ["Id"])) :=
  ⟨rfl, by decide, by decide,
    delete_setup_query_amended scriptNoPA [] objC2 objC2out rfl
      (by decide) (by decide)⟩

theorem contains_eq_true_iff_mem (l : List String) (a : String) :
    l.contains a = true ↔ a ∈ l := by
  simp [List.elem_iff]

theorem mem_expandAppend (denyList : List String) (pat : Pattern)
    (desc : SObjectDescribe) (cur : List String) (f : String) :
    f ∈ expandAppend denyList pat desc cur ↔
      ∃ d ∈ desc.fieldsList, d.name = f ∧ matchesPattern pat d = true ∧
        cur.contains f = false ∧ allowedByDenyList denyList d = true := by
  unfold expandAppend
  constructor
  · intro hf
    obtain ⟨d, hd1, hd2⟩ := List.mem_map.mp hf
    have hd3 := List.mem_filter.mp hd1
    have hprops := hd3.2
    simp only [Bool.and_eq_true, Bool.not_eq_true'] at hprops
    refine ⟨d, hd3.1, hd2, hprops.1.1, ?_, hprops.2⟩
    rw [← hd2]
    exact hprops.1.2
  · rintro ⟨d, hd1, hd2, hm, hc, ha⟩
    refine List.mem_map.mpr ⟨d, List.mem_filter.mpr ⟨hd1, ?_⟩, hd2⟩
    simp only [Bool.and_eq_true, Bool.not_eq_true']
    rw [hd2]
    exact ⟨⟨hm, hc⟩, ha⟩

theorem filter_self_idem (p : String → Bool) (l : List String) :
    (l.filter p).filter p = l.filter p := by
  rw [List.filter_filter]
  simp

theorem addOrRemoveFieldsQ_idem (denyList excl : List String)
    (pat : Option Pattern) (desc : SObjectDescribe) (cur : List String) :
    addOrRemoveFieldsQ denyList excl pat desc
        (addOrRemoveFieldsQ denyList excl pat desc cur) =
      addOrRemoveFieldsQ denyList excl pat desc cur := by
  cases pat with
  | none => simp [addOrRemoveFieldsQ, filter_self_idem]
  | some p =>
      unfold addOrRemoveFieldsQ
      dsimp only
      set ne := fun f => !(excl.contains f) with hne
      set cur' := (cur ++ expandAppend denyList p desc cur).filter ne with hcur'
      rw [List.filter_append]
      have h1 : cur'.filter ne = cur' := by
        rw [hcur', filter_self_idem]
      have h2 : (expandAppend denyList p desc cur').filter ne = [] := by
        rw [List.filter_eq_nil_iff]
        intro f hf
        obtain ⟨d, hd1, hd2, hm, hc, ha⟩ :=
          (mem_expandAppend denyList p desc cur' f).mp hf
        have hfnotin : f ∉ cur' := by
          intro hmem
          have hct := (contains_eq_true_iff_mem cur' f).mpr hmem
          rw [hct] at hc
          exact Bool.noConfusion hc
        have hfin : f ∈ cur ++ expandAppend denyList p desc cur := by
          by_cases hcc : cur.contains f = true
          · exact List.mem_append.mpr (Or.inl
              ((contains_eq_true_iff_mem cur f).mp hcc))
          · refine List.mem_append.mpr (Or.inr ?_)
            refine (mem_expandAppend denyList p desc cur f).mpr ?_
            refine ⟨d, hd1, hd2, hm, ?_, ha⟩
            exact Bool.eq_false_iff.mpr hcc
          
        intro hnef
        apply hfnotin
        rw [hcur']
        exact List.mem_filter.mpr ⟨hfin, hnef⟩
      rw [h1, h2, List.append_nil]

/-- C6: multiselect field expansion is idempotent: applying
`_addOrRemmoveFields` twice with the same snapshot yields the same descriptor
state (field list and serialized query included) as applying it once. -/
theorem addOrRemmoveFields_idempotent (denyList : List String)
    (describe : SObjectDescribe) (obj : ScriptObject) :
    _addOrRemmoveFields denyList describe
        (_addOrRemmoveFields denyList describe obj) =
      _addOrRemmoveFields denyList describe obj := by
  cases hpq : obj.parsedQuery with
  | none => simp [_addOrRemmoveFields, hpq]
  | some pq =>
      simp only [_addOrRemmoveFields, hpq]
      rw [addOrRemoveFieldsQ_idem]

/-- C7: after field expansion has run, no field named in the explicit
exclusion list appears in the resolved query's field list, even if it matches
the multiselect pattern or was explicitly listed. -/
theorem excluded_field_never_in_query (denyList : List String)
    (describe : SObjectDescribe) (obj : ScriptObject) (f : String)
    (hf : f ∈ fieldsInQuery (_addOrRemmoveFields denyList describe obj)) :
    obj.excludedFields.contains f = false := by
  cases hpq : obj.parsedQuery with
  | none =>
      rw [_addOrRemmoveFields] at hf
      rw [hpq] at hf
      dsimp only at hf
      rw [fieldsInQuery, hpq] at hf
      exact absurd hf (List.not_mem_nil f)
  | some pq =>
      rw [_addOrRemmoveFields] at hf
      rw [hpq] at hf
      dsimp only at hf
      rw [fieldsInQuery] at hf
      dsimp only at hf
      unfold addOrRemoveFieldsQ at hf
      have := (List.mem_filter.mp hf).2
      simpa using this

/-- Witness for C7: the field `Name` survives expansion on a descriptor whose
exclusion list holds `Secret`, and is indeed not excluded. -/
theorem excluded_field_never_in_query_witness :
    "Name" ∈ fieldsInQuery (_addOrRemmoveFields [] descEmpty objC7) ∧
      objC7.excludedFields.contains "Name" = false :=
  ⟨by decide, excluded_field_never_in_query [] descEmpty objC7 "Name" (by decide)⟩

/-- C3 (code evidence at the failing input): validating a descriptor whose
configured external id `Name` is missing from the snapshot does not raise the
fatal no-external-key error: because line 441 compares `x.name` (undefined on
a string) with the external id, the dead branch is skipped and the field is
warned about and removed like any ordinary missing field. -/
theorem validate_missing_externalId_not_fatal :
    objC3.externalId = "Name" ∧ hasField descIdOnly "Name" = false ∧
    _validateFields [] descIdOnly true objC3 = Except.ok objC3out ∧
    objC3out.warnings = [(true, "Account", "Name")] ∧
    fieldsInQuery objC3out = ["Id"] := by
  refine ⟨rfl, by decide, by decide, by decide, by decide⟩

theorem removeQueryField_fields (x : String) (q : Option ParsedQuery) :
    (match removeQueryField x q with
      | none => ([] : List String)
      | some pq => pq.fields) =
      (match q with
        | none => ([] : List String)
        | some pq => pq.fields).filter (fun g => !(g == x)) := by
  cases q <;> simp [removeQueryField]

theorem validate_fold_keeps (d : SObjectDescribe) (isSource : Bool) (f : String)
    (hkeep : isComplexOr__rField f = true ∨ hasField d f = true) :
    ∀ (l : List String) (acc : ScriptObject),
      ∃ acc', List.foldlM (validateStep d isSource) acc l = Except.ok acc' ∧
        (fieldsInQuery acc').count f = (fieldsInQuery acc).count f := by
  intro l
  induction l with
  | nil => intro acc; exact ⟨acc, rfl, rfl⟩
  | cons x xs ih =>
      intro acc
      have hfold : List.foldlM (validateStep d isSource) acc (x :: xs) =
          validateStep d isSource acc x >>=
            fun b => List.foldlM (validateStep d isSource) b xs := rfl
      by_cases hx : (!(isComplexOr__rField x) && !(hasField d x)) = true
      · have hfx : f ≠ x := by
          intro hfx
          subst hfx
          simp only [Bool.and_eq_true, Bool.not_eq_true'] at hx
          rcases hkeep with hk | hk
          · rw [hk] at hx; exact Bool.noConfusion hx.1
          · rw [hk] at hx; exact Bool.noConfusion hx.2
        have hstep : validateStep d isSource acc x = Except.ok { acc with
            warnings := acc.warnings ++ [(isSource, acc.name, x)],
            parsedQuery := removeQueryField x acc.parsedQuery } := by
          unfold validateStep
          rw [if_pos hx, if_neg (by simp [strNameProp])]
        obtain ⟨acc', ha1, ha2⟩ := ih { acc with
          warnings := acc.warnings ++ [(isSource, acc.name, x)],
          parsedQuery := removeQueryField x acc.parsedQuery }
        refine ⟨acc', ?_, ?_⟩
        · rw [hfold, hstep]
          simpa [Bind.bind, Except.bind] using ha1
        · rw [ha2]
          show (fieldsInQuery _).count f = (fieldsInQuery acc).count f
          unfold fieldsInQuery
          dsimp only
          rw [removeQueryField_fields]
          refine List.count_filter ?_
          simp [hfx]
      · have hstep : validateStep d isSource acc x = Except.ok acc := by
          unfold validateStep
          rw [if_neg hx]
        obtain ⟨acc', ha1, ha2⟩ := ih acc
        refine ⟨acc', ?_, ha2⟩
        rw [hfold, hstep]
        simpa [Bind.bind, Except.bind] using ha1

theorem validateFields_keeps (specials : List String) (d : SObjectDescribe)
    (isSource : Bool) (obj : ScriptObject) (f : String)
    (hkeep : isComplexOr__rField f = true ∨ hasField d f = true)
    (hcount : (fieldsInQuery obj).count f = 1) :
    ∃ obj2, _validateFields specials d isSource obj = Except.ok obj2 ∧
      (fieldsInQuery obj2).count f = 1 := by
  have hmem : f ∈ fieldsInQuery obj := by
    by_contra hno
    rw [List.count_eq_zero.mpr hno] at hcount
    exact Nat.noConfusion hcount
  have hlen : ¬((fieldsInQuery obj).length = 0) := by
    intro hl
    rw [List.length_eq_zero] at hl
    rw [hl] at hmem
    exact absurd hmem (List.not_mem_nil f)
  unfold _validateFields
  rw [if_neg hlen]
  by_cases hguard : (!obj.isExtraObject && !(specials.contains obj.name)) = true
  · rw [if_pos hguard]
    obtain ⟨obj2, h1, h2⟩ := validate_fold_keeps d isSource f hkeep
      (fieldsInQuery obj) obj
    exact ⟨obj2, h1, by rw [h2, hcount]⟩
  · rw [if_neg hguard]
    exact ⟨obj, rfl, hcount⟩

theorem addOrRemoveFieldsQ_count (denyList excl : List String)
    (pat : Option Pattern) (desc : SObjectDescribe) (cur : List String)
    (f : String) (hcount : cur.count f = 1) (hexcl : excl.contains f = false) :
    (addOrRemoveFieldsQ denyList excl pat desc cur).count f = 1 := by
  have hmem : f ∈ cur := by
    by_contra hno
    rw [List.count_eq_zero.mpr hno] at hcount
    exact Nat.noConfusion hcount
  have hcf : ∀ (l : List String),
      (l.filter (fun g => !(excl.contains g))).count f = l.count f := by
    intro l
    refine List.count_filter ?_
    show (!(excl.contains f)) = true
    rw [hexcl]
    rfl
  unfold addOrRemoveFieldsQ
  cases pat with
  | none =>
      dsimp only
      rw [hcf, hcount]
  | some p =>
      dsimp only
      rw [hcf, List.count_append, hcount]
      have hnotin : f ∉ expandAppend denyList p desc cur := by
        intro hf
        obtain ⟨d, _, _, _, hc, _⟩ :=
          (mem_expandAppend denyList p desc cur f).mp hf
        rw [(contains_eq_true_iff_mem cur f).mpr hmem] at hc
        exact Bool.noConfusion hc
      rw [List.count_eq_zero.mpr hnotin]

theorem addOrRemmoveFields_count (denyList : List String)
    (desc : SObjectDescribe) (obj : ScriptObject) (f : String)
    (hcount : (fieldsInQuery obj).count f = 1)
    (hexcl : obj.excludedFields.contains f = false) :
    (fieldsInQuery (_addOrRemmoveFields denyList desc obj)).count f = 1 := by
  cases hpq : obj.parsedQuery with
  | none =>
      rw [fieldsInQuery, hpq] at hcount
      exact Nat.noConfusion hcount
  | some pq =>
      rw [fieldsInQuery, hpq] at hcount
      simp only [_addOrRemmoveFields, hpq]
      rw [fieldsInQuery]
      exact addOrRemoveFieldsQ_count denyList obj.excludedFields
        obj.multiselectPattern desc pq.fields f hcount hexcl

/-- C4 (amended): after `setup` the resolved field list contains the record
identifier and the resolved external identifier exactly once each; field
expansion preserves the single occurrence of any field the exclusion list does
not name, and field validation completes without a fatal error and preserves
the single occurrence of any field that is complex or present in the snapshot.
(The original claim's "regardless of the exclusion list" fails: expansion's
final filter removes even the record id when it is excluded.) -/
theorem resolved_query_id_extid_once (script : Script) (kws : List String)
    (obj obj' : ScriptObject) (h0 : obj.script = none)
    (hs : setup script kws obj = Except.ok obj') :
    ((fieldsInQuery obj').count "Id" = 1 ∧
      (fieldsInQuery obj').count (getComplexField obj'.externalId) = 1) ∧
    (∀ (denyList : List String) (desc : SObjectDescribe) (o : ScriptObject)
        (f : String), (fieldsInQuery o).count f = 1 →
        o.excludedFields.contains f = false →
        (fieldsInQuery (_addOrRemmoveFields denyList desc o)).count f = 1) ∧
    (∀ (specials : List String) (d : SObjectDescribe) (side : Bool)
        (o : ScriptObject) (f : String),
        isComplexOr__rField f = true ∨ hasField d f = true →
        (fieldsInQuery o).count f = 1 →
        ∃ o2, _validateFields specials d side o = Except.ok o2 ∧
          (fieldsInQuery o2).count f = 1) := by
  refine ⟨?_, ?_, ?_⟩
  · obtain ⟨raw, _, hdq⟩ := setup_ok_inv script kws obj obj' h0 hs
    obtain ⟨pdq, dqt, ho'⟩ := deleteQueryPhase_ok_shape _ _ _ hdq
    obtain ⟨pq, hpq, _, hcid, hcext, _⟩ :=
      applyParsed_parsedQuery_fields script kws (normalizeObj script obj) raw
    have hobjpq : obj'.parsedQuery = some pq := by rw [ho']; exact hpq
    have hext : obj'.externalId = (normalizeObj script obj).externalId := by
      rw [ho']
      exact applyParsed_externalId script kws (normalizeObj script obj) raw
    rw [fieldsInQuery, hobjpq, hext]
    exact ⟨hcid, hcext⟩
  · intro denyList desc o f h1 h2
    exact addOrRemmoveFields_count denyList desc o f h1 h2
  · intro specials d side o f h1 h2
    exact validateFields_keeps specials d side o f h1 h2

/-- Counterexample to C4 as stated: when the exclusion list names `Id`, the
expansion's final filter removes the record identifier from the resolved
query, so it no longer occurs exactly once. -/
theorem resolved_query_id_excluded_counterexample :
    setup scriptNoPA [] objC4 = Except.ok objC4out ∧
    (fieldsInQuery objC4out).count "Id" = 1 ∧
    (fieldsInQuery (_addOrRemmoveFields [] descEmpty objC4out)).count "Id" = 0 := by
  refine ⟨by decide, by decide, by decide⟩

/-- Witness for the amended C4 at a concrete descriptor. -/
theorem resolved_query_id_extid_once_witness :
    objC4.script = none ∧ setup scriptNoPA [] objC4 = Except.ok objC4out ∧
    (((fieldsInQuery objC4out).count "Id" = 1 ∧
      (fieldsInQuery objC4out).count (getComplexField objC4out.externalId) = 1) ∧
    (∀ (denyList : List String) (desc : SObjectDescribe) (o : ScriptObject)
        (f : String), (fieldsInQuery o).count f = 1 →
        o.excludedFields.contains f = false →
        (fieldsInQuery (_addOrRemmoveFields denyList desc o)).count f = 1) ∧
    (∀ (specials : List String) (d : SObjectDescribe) (side : Bool)
        (o : ScriptObject) (f : String),
        isComplexOr__rField f = true ∨ hasField d f = true →
        (fieldsInQuery o).count f = 1 →
        ∃ o2, _validateFields specials d side o = Except.ok o2 ∧
          (fieldsInQuery o2).count f = 1)) :=
  ⟨rfl, by decide,
    resolved_query_id_extid_once scriptNoPA [] objC4 objC4out rfl (by decide)⟩

/-- C8: a failure inside a side's fetch-and-process block that is a
configuration error propagates unchanged through `describeAsync`, while every
other failure is replaced by a metadata error naming the entity and the side
that failed. -/
theorem describe_error_wrapping (env : DescribeEnv) (obj : ScriptObject)
    (ex : JsError) (h0 : obj.sourceSObjectDescribe = none) :
    (env.sourceMedia = DATA_MEDIA_TYPE.Org →
      sourceBlock env obj = Except.error ex →
      describeAsync env obj = Except.error
        (match ex with
          | JsError.commandInit m => JsError.commandInit m
          | _ => JsError.orgMetadata ("objectSourceDoesNotExist:" ++ obj.name))) ∧
    (∀ obj2, env.sourceMedia = DATA_MEDIA_TYPE.Org →
      sourceBlock env obj = Except.ok obj2 →
      env.targetMedia = DATA_MEDIA_TYPE.Org →
      targetBlock env obj2 = Except.error ex →
      describeAsync env obj = Except.error
        (match ex with
          | JsError.commandInit m => JsError.commandInit m
          | _ => JsError.orgMetadata ("objectTargetDoesNotExist:" ++ obj2.name))) ∧
    (env.sourceMedia = DATA_MEDIA_TYPE.File →
      env.targetMedia = DATA_MEDIA_TYPE.Org →
      targetBlock env obj = Except.error ex →
      describeAsync env obj = Except.error
        (match ex with
          | JsError.commandInit m => JsError.commandInit m
          | _ => JsError.orgMetadata ("objectTargetDoesNotExist:" ++ obj.name))) := by
  have hd : isDescribed obj = false := by simp [isDescribed, h0]
  refine ⟨?_, ?_, ?_⟩
  · intro hsm hblock
    unfold describeAsync
    rw [hd]
    simp only [Bool.false_eq_true, if_false]
    rw [if_pos hsm, hblock]
    cases ex <;> rfl
  · intro obj2 hsm hblock htm hblock2
    unfold describeAsync
    rw [hd]
    simp only [Bool.false_eq_true, if_false]
    rw [if_pos hsm, hblock]
    show (if env.targetMedia = DATA_MEDIA_TYPE.Org then
        Except.mapError (wrapDescribeError obj2.name false) (targetBlock env obj2)
      else Except.ok obj2) = _
    rw [if_pos htm, hblock2]
    cases ex <;> rfl
  · intro hsm htm hblock
    unfold describeAsync
    rw [hd]
    simp only [Bool.false_eq_true, if_false]
    rw [if_neg (by rw [hsm]; intro hcon; exact DATA_MEDIA_TYPE.noConfusion hcon)]
    show (if env.targetMedia = DATA_MEDIA_TYPE.Org then
        Except.mapError (wrapDescribeError obj.name false) (targetBlock env obj)
      else Except.ok obj) = _
    rw [if_pos htm, hblock]
    cases ex <;> rfl

/-- Witness for C8: with both sides being orgs and a foreign source-fetch
failure, `describeAsync` reports a metadata error naming the entity and the
source side. -/
theorem describe_error_wrapping_witness :
    objC8.sourceSObjectDescribe = none ∧
    envC8.sourceMedia = DATA_MEDIA_TYPE.Org ∧
    sourceBlock envC8 objC8 = Except.error exC8 ∧
    describeAsync envC8 objC8 = Except.error
      (JsError.orgMetadata ("objectSourceDoesNotExist:" ++ objC8.name)) :=
  ⟨rfl, rfl, by decide,
    (describe_error_wrapping envC8 objC8 exC8 rfl).1 rfl (by decide)⟩

/-- C10: when both media are files, `describeAsync` consults neither fetch,
changes nothing, raises no error, and the descriptor stays outside the
described state, so the field-to-descriptor map keeps returning empty
results. -/
theorem describe_file_file_noop (env : DescribeEnv) (obj : ScriptObject)
    (h0 : obj.sourceSObjectDescribe = none)
    (hs : env.sourceMedia = DATA_MEDIA_TYPE.File)
    (ht : env.targetMedia = DATA_MEDIA_TYPE.File) :
    describeAsync env obj = Except.ok obj ∧
    isDescribed obj = false ∧
    fieldsInQueryMap obj = [] := by
  have hd : isDescribed obj = false := by simp [isDescribed, h0]
  refine ⟨?_, hd, ?_⟩
  · unfold describeAsync
    rw [hd]
    simp only [Bool.false_eq_true, if_false]
    rw [if_neg (by rw [hs]; intro hcon; exact DATA_MEDIA_TYPE.noConfusion hcon)]
    show (if env.targetMedia = DATA_MEDIA_TYPE.Org then
        Except.mapError (wrapDescribeError obj.name false) (targetBlock env obj)
      else Except.ok obj) = _
    rw [if_neg (by rw [ht]; intro hcon; exact DATA_MEDIA_TYPE.noConfusion hcon)]
  · unfold fieldsInQueryMap
    rw [h0]

/-- Witness for C10: a concrete undescribed descriptor between two file media
(whose fetch outcomes are failures, showing they are never consulted). -/
theorem describe_file_file_noop_witness :
    objC8.sourceSObjectDescribe = none ∧
    envC10.sourceMedia = DATA_MEDIA_TYPE.File ∧
    envC10.targetMedia = DATA_MEDIA_TYPE.File ∧
    (describeAsync envC10 objC8 = Except.ok objC8 ∧
      isDescribed objC8 = false ∧
      fieldsInQueryMap objC8 = []) :=
  ⟨rfl, rfl, rfl, describe_file_file_noop envC10 objC8 rfl rfl rfl⟩
